import Mathlib

/-!
Shallow embedding of `evennia/contrib/events/scripts.py` (the event system
global script): the dispatch engine (`EventHandler.call_event`), the event
store deletion path (`EventHandler.del_event`), the type registry
(`EventHandler.get_event_types`), and the persistent task scheduler
(`EventHandler.at_start`, `EventHandler.set_task`, `complete_task`).

Values stored in execution namespaces are opaque to the dispatcher, so the
embedding is polymorphic in a value type `α`.  Script bodies are modelled as
functions from a namespace to an execution outcome (normal completion with a
possibly mutated namespace, the explicit `InterruptEvent` signal, or any
other fault), mirroring the spec's interpreter-collaborator boundary.
-/

namespace Evennia

/-- An execution namespace: the `locals` dictionary passed to `exec`,
modelled as an association list from variable names to values. -/
abbrev Namespace (α : Type) := List (String × α)

/-- Dictionary assignment `d[k] = v`: replace the first binding of `k`,
or append a fresh one. -/
def alInsert {κ β : Type} [DecidableEq κ] : List (κ × β) → κ → β → List (κ × β)
  | [], k, v => [(k, v)]
  | (k₂, v₂) :: rest, k, v =>
      if k₂ = k then (k, v) :: rest else (k₂, v₂) :: alInsert rest k v

/-- Outcome of running one script body (`exec(event["code"], locals, locals)`):
normal completion, the explicit `InterruptEvent`, or any other exception.
Each outcome carries the namespace as left by the (possibly partial) run. -/
inductive ExecResult (α : Type) where
  | ok (ns : Namespace α)
  | interrupt (ns : Namespace α)
  | fault (ns : Namespace α)

/-- A script body: the embedded interpreter is a collaborator, so code is an
abstract function from the namespace it runs in to an outcome. -/
abbrev Code (α : Type) := Namespace α → ExecResult α

/-- One stored event fragment as kept in `db.events[obj][name]` (the fields
`call_event` reads: the validity flag and the code). -/
structure StoredEvent (α : Type) where
  valid : Bool
  code : Code α

/-- One fragment as returned by `get_events`: the stored fields plus the
`"number"` key assigned from the fragment's position in its list. -/
structure Event (α : Type) where
  number : Nat
  valid : Bool
  code : Code α

/-- `get_events` numbering: each fragment of the stored list receives its
0-based index as its `"number"`. -/
def get_events_list {α : Type} (stored : List (StoredEvent α)) : List (Event α) :=
  stored.enum.map (fun p => ⟨p.1, p.2.valid, p.2.code⟩)

/-- The resolved event type used by `call_event`: `event_type[0]` is the
ordered parameter-name list, `event_type[3]` the optional `custom_call`
hook filtering/reordering the fragment list. -/
structure EventType (α : Type) where
  params : List String
  custom_call : Option (List (Event α) → Option String → List (Event α))

/-- The keyword arguments of `call_event`: the three recognised slots plus
the names of any other keyword arguments supplied. -/
structure Kwargs (α : Type) where
  number : Option Nat
  parameters : Option String
  locals : Option (Namespace α)
  extra : List String

/-- The keys of the `kwargs` dictionary as seen by the `any(...)` check. -/
def kwargKeys {α : Type} (kw : Kwargs α) : List String :=
  (if kw.number.isSome then ["number"] else []) ++
    (if kw.parameters.isSome then ["parameters"] else []) ++
      (if kw.locals.isSome then ["locals"] else []) ++ kw.extra

/-- `allowed = ("number", "parameters", "locals")`. -/
def allowedKw : List String := ["number", "parameters", "locals"]

/-- Observable trace of one dispatch: the numbers of the fragments whose
code was run, and for each error-channel message the 1-based fragment
number it references. -/
structure Trace where
  executed : List Nat
  msgs : List Nat
deriving DecidableEq, Repr

/-- Result of `call_event`: either the `TypeError` raised for unknown
keyword arguments, or a normal return carrying the boolean and the trace. -/
inductive CallResult where
  | typeError
  | returned (completed : Bool) (tr : Trace)
deriving DecidableEq, Repr

/-- The parameter-binding loop `for i, variable in enumerate(event_type[0]):
locals[variable] = args[i]`; `none` is the `IndexError` path (fewer
positional arguments than declared parameters). -/
def bind_params {α : Type} : List String → List α → Namespace α → Option (Namespace α)
  | [], _, ns => some ns
  | _ :: _, [], _ => none
  | v :: vs, a :: rest, ns => bind_params vs rest (alInsert ns v a)

/-- The `continue` condition `number is not None and event["number"] != number`. -/
def numberMismatch : Option Nat → Nat → Bool
  | none, _ => false
  | some n, m => m != n

/-- The fragment-execution loop of `call_event` (lines 437–478).  On a
non-interrupt fault the source rebinds the local variable `number` to the
faulting fragment's number before reporting, which from then on acts as the
loop's number filter. -/
def exec_loop {α : Type} :
    List (Event α) → Option Nat → Namespace α → Trace → Bool × Trace
  | [], _, _, tr => (true, tr)
  | e :: rest, number, ns, tr =>
      if e.valid = false then exec_loop rest number ns tr
      else if numberMismatch number e.number then exec_loop rest number ns tr
      else
        match e.code ns with
        | .ok ns₂ => exec_loop rest number ns₂ ⟨tr.executed ++ [e.number], tr.msgs⟩
        | .interrupt _ => (false, ⟨tr.executed ++ [e.number], tr.msgs⟩)
        | .fault ns₂ =>
            exec_loop rest (some e.number) ns₂
              ⟨tr.executed ++ [e.number], tr.msgs ++ [e.number + 1]⟩

/-- Fragment gathering and execution (lines 429–478): number the stored
fragments, pass them through `custom_call` when the type declares one, then
run the loop. -/
def run_frags {α : Type} (event_type : Option (EventType α))
    (stored : List (StoredEvent α)) (parameters : Option String)
    (number : Option Nat) (locals : Namespace α) : CallResult :=
  let events := get_events_list stored
  let events :=
    match event_type with
    | some et =>
        match et.custom_call with
        | some f => f events parameters
        | none => events
    | none => events
  let r := exec_loop events number locals ⟨[], []⟩
  .returned r.1 r.2

/-- `EventHandler.call_event` (lines 379–478).  `fresh_locals` is
`self.ndb.fresh_locals`, `event_type` the result of
`get_event_types(obj).get(event_name)`, `stored` the object's fragment list
for this name. -/
def call_event {α : Type} (fresh_locals : Namespace α)
    (event_type : Option (EventType α)) (stored : List (StoredEvent α))
    (args : List α) (kw : Kwargs α) : CallResult :=
  if (kwargKeys kw).any (fun k => !(decide (k ∈ allowedKw)) && !(decide (k = ""))) then
    .typeError
  else
    match kw.locals with
    | none =>
        match event_type with
        | none => .returned false ⟨[], []⟩
        | some et =>
            match bind_params et.params args fresh_locals with
            | none => .returned false ⟨[], []⟩
            | some locals => run_frags (some et) stored kw.parameters kw.number locals
    | some l => run_frags event_type stored kw.parameters kw.number l

/-- A script body that completes normally, leaving the namespace unchanged. -/
def okCode : Code Nat := fun ns => .ok ns

/-- A script body that raises a non-interrupt exception. -/
def faultCode : Code Nat := fun ns => .fault ns

/-- A script body that raises `InterruptEvent`. -/
def interruptCode : Code Nat := fun ns => .interrupt ns

/-- Three valid fragments whose second raises a non-interrupt fault. -/
def threeFragsFault : List (StoredEvent Nat) :=
  [⟨true, okCode⟩, ⟨true, faultCode⟩, ⟨true, okCode⟩]

/-! ## Event store: `EventHandler.del_event` (lines 299–359)

`db.events` is a dictionary from object to a dictionary from event name to
the fragment list; `db.to_valid` and `db.locked` are lists of
`(obj, event_name, number)` tuples; the bound `TimeEventScript`s carry
`(obj, db.event_name, db.number)` plus a stopped flag.  Objects are
identified by their id (a `Nat`); Python's `is` and `==` on them coincide
with id equality. -/

/-- A `(obj, event_name, number)` tuple as stored in `db.to_valid` and
`db.locked`. -/
abbrev Entry := Nat × String × Nat

/-- The fields of a `TimeEventScript` that `del_event` touches: the object
it sits on, its bound event name and number (`db.number` may be `None`),
and whether `stop()` has been called on it. -/
structure TScript where
  obj : Nat
  event_name : String
  number : Option Nat
  stopped : Bool
deriving DecidableEq, Repr

/-- `db.events`: object id → event name → fragment list. -/
abbrev EventsDb (α : Type) := List (Nat × List (String × List (StoredEvent α)))

/-- Update the value stored under key `k` of an association list, leaving
every other key untouched (dictionary item assignment). -/
def alSet {κ β : Type} [DecidableEq κ] : List (κ × β) → κ → (β → β) → List (κ × β)
  | [], _, _ => []
  | (a, b) :: rest, k, f =>
      if a = k then (a, f b) :: alSet rest k f else (a, b) :: alSet rest k f

/-- `self.db.events.get(obj, {})`. -/
def dbGetObj {α : Type} (db : EventsDb α) (obj : Nat) :
    List (String × List (StoredEvent α)) :=
  (db.lookup obj).getD []

/-- `self.db.events.get(obj, {}).get(event_name, [])`. -/
def dbGetEvents {α : Type} (db : EventsDb α) (obj : Nat) (name : String) :
    List (StoredEvent α) :=
  ((dbGetObj db obj).lookup name).getD []

/-- Replace the fragment list stored under `(obj, name)` (the in-place
`del events[number]` seen through the dictionary). -/
def dbSetEvents {α : Type} (db : EventsDb α) (obj : Nat) (name : String)
    (l : List (StoredEvent α)) : EventsDb α :=
  alSet db obj (fun inner => alSet inner name (fun _ => l))

/-- One step of the `to_valid` renumbering loop, as a partial map:
drop the entry equal to the deleted tuple, decrement the index of a
same-(obj,name) entry above the deleted index, keep everything else. -/
def tvStep (obj : Nat) (name : String) (number : Nat) (t : Entry) :
    Option Entry :=
  if t.1 = obj ∧ t.2.1 = name then
    if t.2.2 = number then none
    else if number < t.2.2 then some (t.1, t.2.1, t.2.2 - 1)
    else some t
  else some t

/-- The `while i < len(self.db.to_valid)` loop of `del_event` (lines
330–343): a single left-to-right pass deleting exact matches and replacing
higher same-(obj,name) indices by their decrement. -/
def renumberToValid (obj : Nat) (name : String) (number : Nat) :
    List Entry → List Entry
  | [] => []
  | (o, n, i) :: rest =>
      if o = obj ∧ n = name then
        if i = number then renumberToValid obj name number rest
        else if number < i then
          (o, n, i - 1) :: renumberToValid obj name number rest
        else (o, n, i) :: renumberToValid obj name number rest
      else (o, n, i) :: renumberToValid obj name number rest

/-- One step of the `db.locked` update (lines 346–350): decrement the index
of same-(obj,name) entries strictly above the deleted index.  Entries equal
to the deleted index are left alone (the deleted tuple itself cannot be
present, since a locked tuple cannot be deleted). -/
def lockStep (obj : Nat) (name : String) (number : Nat) (t : Entry) : Entry :=
  if t.1 = obj ∧ t.2.1 = name ∧ number < t.2.2 then (t.1, t.2.1, t.2.2 - 1)
  else t

/-- One step of the `TimeEventScript` update (lines 353–359): a script
bound to the deleted `(obj, name, number)` is stopped, one bound to a
higher number has its bound number decremented; a script with
`db.number = None` compares unequal and not-greater in Python 2 and is
left alone. -/
def sStep (obj : Nat) (name : String) (number : Nat) (s : TScript) : TScript :=
  if s.obj = obj ∧ s.event_name = name then
    match s.number with
    | some i =>
        if i = number then { s with stopped := true }
        else if number < i then { s with number := some (i - 1) }
        else s
    | none => s
  else s

/-- The persistent state `del_event` reads and writes. -/
structure StoreState (α : Type) where
  events : EventsDb α
  to_valid : List Entry
  locked : List Entry
  scripts : List TScript

/-- `EventHandler.del_event` (lines 299–359): raise `RuntimeError` if the
tuple is locked; return silently when no fragment exists at the index;
otherwise delete the fragment and renumber `to_valid`, `locked` and the
bound scripts. -/
def del_event {α : Type} (st : StoreState α) (obj : Nat) (name : String)
    (number : Nat) : Except Unit (StoreState α) :=
  let events := dbGetEvents st.events obj name
  if (obj, name, number) ∈ st.locked then .error ()
  else
    match events[number]? with
    | none => .ok st
    | some _ =>
        .ok { events := dbSetEvents st.events obj name (events.eraseIdx number),
              to_valid := renumberToValid obj name number st.to_valid,
              locked := st.locked.map (lockStep obj name number),
              scripts := st.scripts.map (sStep obj name number) }

/-! ## Type registry: `EventHandler.get_event_types` (lines 129–166)

Typeclasses are identified by their dotted name (`__module__ + "." +
__name__`).  An event-type declaration is the tuple stored in
`ndb.event_types[typeclass_name][key]`; only its first component (the
parameter list, where `None` is the invalidate sentinel) steers the
algorithm, so the remaining components are abstracted into a numeric tag
distinguishing declarations. -/

/-- A registry declaration: `etype[0]` (parameter list, `none` meaning
invalidate) plus a tag standing for the remaining tuple components. -/
abbrev RegEType := Option (List String) × Nat

/-- The ancestor graph and the per-typeclass declarations
(`typeclass.__bases__` and `ndb.event_types`). -/
structure Hierarchy where
  bases : String → List String
  decls : String → List (String × RegEType)

/-- The inner `for key, etype in event_types.get(typeclass_name, {}).items()`
loop: skip keys already invalidated, record the invalidate sentinel, adopt a
declaration only for keys not yet resolved. -/
def procDecls : List (String × RegEType) → List (String × RegEType) →
    List String → List (String × RegEType) × List String
  | [], types, invalid => (types, invalid)
  | (key, etype) :: rest, types, invalid =>
      if key ∈ invalid then procDecls rest types invalid
      else if etype.1 = none then procDecls rest types (invalid ++ [key])
      else if (types.lookup key).isSome then procDecls rest types invalid
      else procDecls rest (types ++ [(key, etype)]) invalid

/-- The `while not classes.empty()` loop: FIFO queue of typeclasses, each
processed then replaced by its bases (breadth-first).  Python's loop
terminates because class hierarchies are finite DAGs; the embedding makes
the bound explicit as fuel. -/
def getEventTypesAux (h : Hierarchy) : Nat → List String →
    List (String × RegEType) → List String → List (String × RegEType)
  | 0, _, types, _ => types
  | _ + 1, [], types, _ => types
  | fuel + 1, c :: queue, types, invalid =>
      let r := procDecls (h.decls c) types invalid
      getEventTypesAux h fuel (queue ++ h.bases c) r.1 r.2

/-- `EventHandler.get_event_types`: start from the object's own typeclass
with empty result and empty invalidation list. -/
def get_event_types (h : Hierarchy) (cls : String) (fuel : Nat) :
    List (String × RegEType) :=
  getEventTypesAux h fuel [cls] [] []

/-- The declaration of event "foo" made by typeclass `"A"`. -/
def fooDecl : RegEType := (some ["x"], 0)

/-- The invalidate sentinel entry (`etype[0] is None`). -/
def invalidDecl : RegEType := (none, 1)

/-- Typeclasses `B` and `C` both inherit from `A`; `A` declares `"foo"`,
`B` marks `"foo"` invalid, `C` declares nothing. -/
def sampleHier : Hierarchy where
  bases := fun c => if c = "B" then ["A"] else if c = "C" then ["A"] else []
  decls := fun c =>
    if c = "A" then [("foo", fooDecl)]
    else if c = "B" then [("foo", invalidDecl)]
    else []

/-! ## Task scheduler: `at_start` (lines 77–85), `set_task` (480–518),
`complete_task` (571–593) -/

/-- One entry of `db.tasks`: `(future, obj, event_name, locals)`.  Times are
integral seconds on an absolute clock. -/
structure TaskRecord (α : Type) where
  future : Int
  obj : Nat
  name : String
  locals : Namespace α

/-- The restart-recovery pass of `at_start` (lines 78–85): for every stored
task compute `(future - now).total_seconds()`, clamp negative values to 0,
and arm `delay(seconds, complete_task, task_id)`; the result lists the
armed `(seconds, task_id)` timers in storage order. -/
def at_start_rearm {α : Type} (tasks : List (Nat × TaskRecord α)) (now : Int) :
    List (Int × Nat) :=
  tasks.map (fun p =>
    (if p.2.future - now < 0 then 0 else p.2.future - now, p.1))

/-- The mutable scheduler state: `db.task_id` and `db.tasks`. -/
structure SchedState (α : Type) where
  task_id : Nat
  tasks : List (Nat × TaskRecord α)

/-- The externally observable steps of `set_task`, in program order:
storing the task record, then arming the one-shot timer. -/
inductive SchedAction where
  | store (tid : Nat)
  | arm (seconds : Int) (tid : Nat)
deriving DecidableEq, Repr

/-- `EventHandler.set_task` (lines 480–518): allocate the next task id,
snapshot the current locals keeping only values the persistence substrate
can serialize (`dbserialize` succeeding is the abstract `storable`
predicate; a `TypeError` silently drops the entry), store the record with
`future = now + seconds`, then arm the timer. -/
def set_task {α : Type} (storable : α → Bool) (now : Int)
    (current_locals : Namespace α) (seconds : Int) (obj : Nat) (name : String)
    (st : SchedState α) : SchedState α × List SchedAction :=
  let task_id := st.task_id
  let locals := current_locals.filter (fun kv => storable kv.2)
  ({ task_id := task_id + 1,
     tasks := alInsert st.tasks task_id ⟨now + seconds, obj, name, locals⟩ },
   [.store task_id, .arm seconds task_id])

/-- Result of one `complete_task` invocation: the handler script could not
be found, the task id was unknown (`log_err`, no dispatch), or the stored
event was dispatched with the captured snapshot as `locals`. -/
inductive CompleteResult (α : Type) where
  | noHandler
  | lookupMiss
  | dispatched (obj : Nat) (name : String) (locals : Namespace α)

/-- `complete_task` (lines 571–593): look the task id up in `db.tasks`;
if absent log and return; otherwise `pop` the record and call
`call_event(obj, event_name, locals=locals)` exactly once. -/
def complete_task {α : Type} (handler : Option (SchedState α)) (task_id : Nat) :
    CompleteResult α × Option (SchedState α) :=
  match handler with
  | none => (.noHandler, none)
  | some st =>
      match st.tasks.lookup task_id with
      | none => (.lookupMiss, some st)
      | some r =>
          (.dispatched r.obj r.name r.locals,
            some { st with tasks := st.tasks.eraseP (fun kv => kv.1 == task_id) })

/-- A concrete event store used by witnesses: object 1 holds three valid
fragments under event name "greet"; the validation queue holds two entries
for `(1, "greet")`, one for another object and one for another name; the
lock set holds `(1, "greet", 2)`; three periodic trigger scripts are bound. -/
def sampleStore : StoreState Nat where
  events := [(1, [("greet", [⟨true, okCode⟩, ⟨true, okCode⟩, ⟨true, okCode⟩])])]
  to_valid := [(1, "greet", 1), (1, "greet", 2), (2, "greet", 2), (1, "other", 2)]
  locked := [(1, "greet", 2), (1, "greet", 5)]
  scripts := [⟨1, "greet", some 1, false⟩, ⟨1, "greet", some 2, false⟩,
    ⟨1, "other", some 2, false⟩]

/-- A concrete scheduler state used by witnesses: one stored task. -/
def sampleSched : SchedState Nat where
  task_id := 1
  tasks := [(0, ⟨100, 1, "greet", [("x", 5)]⟩)]

/-- The single-pass `to_valid` loop computes exactly the partial map
`tvStep` over the list. -/
theorem renumberToValid_eq_filterMap (obj : Nat) (name : String) (number : Nat)
    (tv : List Entry) :
    renumberToValid obj name number tv = tv.filterMap (tvStep obj name number) := by
  induction tv with
  | nil => rfl
  | cons t rest ih =>
      obtain ⟨o, n, i⟩ := t
      by_cases h₁ : o = obj ∧ n = name
      · by_cases h₂ : i = number
        · simp [renumberToValid, tvStep, h₁, h₂, List.filterMap_cons, ih]
        · by_cases h₃ : number < i <;>
            simp [renumberToValid, tvStep, h₁, h₂, h₃, List.filterMap_cons, ih]
      · simp [renumberToValid, tvStep, h₁, List.filterMap_cons, ih]

/-- Looking up a key other than the updated one is unchanged by `alSet`. -/
theorem lookup_alSet_ne {κ β : Type} [DecidableEq κ] [BEq κ] [LawfulBEq κ]
    (l : List (κ × β)) (k k₂ : κ) (f : β → β) (h : k₂ ≠ k) :
    (alSet l k f).lookup k₂ = l.lookup k₂ := by
  induction l with
  | nil => rfl
  | cons p rest ih =>
      obtain ⟨a, b⟩ := p
      by_cases hp : a = k
      · subst hp
        have hk : (k₂ == a) = false := beq_eq_false_iff_ne.mpr h
        simp [alSet, List.lookup_cons, hk, ih]
      · cases hbe : k₂ == a <;> simp [alSet, hp, List.lookup_cons, hbe, ih]

/-- Looking up the updated key of `alSet` yields the updated value. -/
theorem lookup_alSet_self {κ β : Type} [DecidableEq κ] [BEq κ] [LawfulBEq κ]
    (l : List (κ × β)) (k : κ) (f : β → β) :
    (alSet l k f).lookup k = (l.lookup k).map f := by
  induction l with
  | nil => rfl
  | cons p rest ih =>
      obtain ⟨a, b⟩ := p
      by_cases hp : a = k
      · subst hp
        simp [alSet, List.lookup_cons]
      · have hk : (k == a) = false := beq_eq_false_iff_ne.mpr (fun e => hp e.symm)
        simp [alSet, hp, List.lookup_cons, hk, ih]

/-- Fragment lists of any other object or any other event name are
untouched by `dbSetEvents`. -/
theorem dbGetEvents_dbSetEvents_ne {α : Type} (db : EventsDb α)
    (obj obj₂ : Nat) (name name₂ : String) (l : List (StoredEvent α))
    (h : obj₂ ≠ obj ∨ name₂ ≠ name) :
    dbGetEvents (dbSetEvents db obj name l) obj₂ name₂ =
      dbGetEvents db obj₂ name₂ := by
  rcases h with h | h
  · unfold dbGetEvents dbGetObj dbSetEvents
    rw [lookup_alSet_ne db obj obj₂ _ h]
  · by_cases ho : obj₂ = obj
    · subst ho
      unfold dbGetEvents dbGetObj dbSetEvents
      rw [lookup_alSet_self db obj₂ _]
      rcases hl : db.lookup obj₂ with _ | inner
      · simp
      · simp [lookup_alSet_ne inner name name₂ _ h]
    · unfold dbGetEvents dbGetObj dbSetEvents
      rw [lookup_alSet_ne db obj obj₂ _ ho]

/-- `bind_params` fails (the `IndexError` path) exactly when fewer positional
arguments than declared parameters were supplied. -/
theorem bind_params_eq_none_iff {α : Type} (ps : List String) (args : List α)
    (ns : Namespace α) :
    bind_params ps args ns = none ↔ args.length < ps.length := by
  induction ps generalizing args ns with
  | nil => simp [bind_params]
  | cons p ps ih =>
      cases args with
      | nil => simp [bind_params]
      | cons a rest => simpa [bind_params] using ih rest (alInsert ns p a)

/-- For an empty parameter list, binding always succeeds with the fresh
namespace unchanged. -/
theorem bind_params_nil {α : Type} (args : List α) (ns : Namespace α) :
    bind_params [] args ns = some ns := rfl

/-- Claim C1: evaluating `call_event` on three valid fragments whose second
raises a non-interrupt fault.  The call returns true and emits exactly one
error-channel message referencing 1-based fragment number 2, but the
executed trace is `[0, 1]`: the third fragment (number 2) is never run,
because the fault handler rebinds the loop's `number` filter to the faulting
fragment's number.  This contradicts the claim's (and the source comment
flow's) intent that a fault never prevents later fragments from running. -/
theorem C1_fault_skips_following_fragment :
    call_event (α := Nat) [] (some ⟨[], none⟩) threeFragsFault []
      ⟨none, none, none, []⟩ = .returned true ⟨[0, 1], [2]⟩ := rfl

/-- Claim C6: an explicit interrupt stops fragment processing immediately
and the call returns false.  First conjunct: in general, as soon as the loop
reaches a runnable fragment whose code raises the interrupt signal, it
returns false at once, having run no later fragment.  Second conjunct: for
three valid fragments whose second raises the interrupt, exactly one
fragment (number 0) runs before it and none after, and the call returns
false with no error-channel message. -/
theorem C6_interrupt_stops_processing :
    (∀ (α : Type) (e : Event α) (rest : List (Event α)) (number : Option Nat)
        (ns ns₂ : Namespace α) (tr : Trace),
      e.valid = true → numberMismatch number e.number = false →
      e.code ns = .interrupt ns₂ →
      exec_loop (e :: rest) number ns tr =
        (false, ⟨tr.executed ++ [e.number], tr.msgs⟩)) ∧
    (∀ (c₁ c₂ c₃ : Code Nat) (fresh ns₁ ns₂ : Namespace Nat),
      c₁ fresh = .ok ns₁ → c₂ ns₁ = .interrupt ns₂ →
      call_event fresh (some ⟨[], none⟩) [⟨true, c₁⟩, ⟨true, c₂⟩, ⟨true, c₃⟩]
        [] ⟨none, none, none, []⟩ = .returned false ⟨[0, 1], []⟩) := by
  constructor
  · intro α e rest number ns ns₂ tr hv hn hi
    simp [exec_loop, hv, hn, hi]
  · intro c₁ c₂ c₃ fresh ns₁ ns₂ h₁ h₂
    simp [call_event, kwargKeys, run_frags, get_events_list, List.enum,
      bind_params, exec_loop, numberMismatch, h₁, h₂]

/-- Witness for C6 at concrete inputs. -/
theorem C6_interrupt_stops_processing_witness :
    exec_loop [⟨(5 : Nat), true, interruptCode⟩] none [] ⟨[], []⟩ =
      (false, ⟨[5], []⟩) ∧
    call_event ([] : Namespace Nat) (some ⟨[], none⟩)
      [⟨true, okCode⟩, ⟨true, interruptCode⟩, ⟨true, okCode⟩] []
      ⟨none, none, none, []⟩ = .returned false ⟨[0, 1], []⟩ :=
  ⟨C6_interrupt_stops_processing.1 Nat ⟨5, true, interruptCode⟩ [] none [] []
      ⟨[], []⟩ rfl rfl rfl,
    C6_interrupt_stops_processing.2 okCode interruptCode okCode [] [] [] rfl rfl⟩

/-- Claim C7: when no override namespace is supplied and the event type
declares more parameters than positional arguments given, `call_event`
returns false with an empty trace: no fragment is run and no error-channel
message is emitted. -/
theorem C7_binding_failure_runs_nothing {α : Type} (fresh : Namespace α)
    (et : EventType α) (stored : List (StoredEvent α)) (args : List α)
    (number : Option Nat) (parameters : Option String)
    (h : args.length < et.params.length) :
    call_event fresh (some et) stored args ⟨number, parameters, none, []⟩ =
      .returned false ⟨[], []⟩ := by
  have hb : bind_params et.params args fresh = none :=
    (bind_params_eq_none_iff et.params args fresh).mpr h
  cases number <;> cases parameters <;>
    simp [call_event, kwargKeys, allowedKw, hb]

/-- Witness for C7: two declared parameters, one positional argument, one
valid stored fragment; the call fails without running it. -/
theorem C7_binding_failure_runs_nothing_witness :
    (1 : Nat) < 2 ∧
    call_event (α := Nat) [] (some ⟨["a", "b"], none⟩) [⟨true, okCode⟩] [7]
      ⟨none, none, none, []⟩ = .returned false ⟨[], []⟩ :=
  ⟨by decide,
    C7_binding_failure_runs_nothing [] ⟨["a", "b"], none⟩ [⟨true, okCode⟩] [7]
      none none (by decide)⟩

/-- Claim C9, counterexample: a keyword argument whose name is the empty
string is not one of the three allowed names, yet the call does not raise
`TypeError` (the source's `any(k for k in kwargs if k not in allowed)` tests
the truthiness of the key itself, and the empty string is falsy); the call
proceeds and returns false for the missing event type. -/
theorem C9_counterexample_empty_string_kwarg :
    call_event (α := Nat) [] none [] [] ⟨none, none, none, [""]⟩ ≠
        CallResult.typeError ∧
    call_event (α := Nat) [] none [] [] ⟨none, none, none, [""]⟩ =
      .returned false ⟨[], []⟩ := by
  refine ⟨?_, rfl⟩
  decide

/-- Claim C9 as amended: a call with a NON-EMPTY keyword-argument name that
is not one of "number", "parameters", "locals" raises `TypeError`, whatever
the event type, fragments or arguments are (so before resolving the event
type and before any fragment runs). -/
theorem C9_amended_unknown_kwarg_type_error {α : Type} (fresh : Namespace α)
    (event_type : Option (EventType α)) (stored : List (StoredEvent α))
    (args : List α) (kw : Kwargs α) (k : String) (hk : k ∈ kw.extra)
    (h₁ : k ∉ allowedKw) (h₂ : k ≠ "") :
    call_event fresh event_type stored args kw = .typeError := by
  have hmem : k ∈ kwargKeys kw := by
    simp [kwargKeys, hk]
  have : (kwargKeys kw).any
      (fun k => !(decide (k ∈ allowedKw)) && !(decide (k = ""))) = true :=
    List.any_eq_true.mpr ⟨k, hmem, by simp [h₁, h₂]⟩
  simp [call_event, this]

/-- Keys already marked invalid stay invalid through one declaration pass. -/
theorem procDecls_invalid_sub (ds types : List (String × RegEType))
    (invalid : List String) (k : String) (h : k ∈ invalid) :
    k ∈ (procDecls ds types invalid).2 := by
  induction ds generalizing types invalid with
  | nil => simpa [procDecls] using h
  | cons d rest ih =>
      obtain ⟨key, etype⟩ := d
      by_cases h₁ : key ∈ invalid
      · simpa [procDecls, h₁] using ih types invalid h
      · by_cases h₂ : etype.1 = none
        · simp only [procDecls, if_neg h₁, if_pos h₂]
          exact ih _ _ (List.mem_append.mpr (Or.inl h))
        · cases h₃ : (types.lookup key).isSome
          · simp only [procDecls, if_neg h₁, if_neg h₂, h₃, Bool.false_eq_true,
              if_false]
            exact ih _ _ h
          · simp only [procDecls, if_neg h₁, if_neg h₂, h₃, if_true]
            exact ih _ _ h

/-- Looking a key up in an association list extended on the right. -/
theorem lookup_append {κ β : Type} [BEq κ] (l₁ l₂ : List (κ × β)) (k : κ) :
    (l₁ ++ l₂).lookup k = ((l₁.lookup k).orElse (fun _ => l₂.lookup k)) := by
  induction l₁ with
  | nil => simp
  | cons p rest ih =>
      obtain ⟨a, b⟩ := p
      cases hk : k == a <;> simp [List.lookup_cons, hk, ih]

/-- One declaration pass never changes the resolution of a key that is
already marked invalid. -/
theorem procDecls_lookup_of_invalid (ds types : List (String × RegEType))
    (invalid : List String) (k : String) (h : k ∈ invalid) :
    ((procDecls ds types invalid).1).lookup k = types.lookup k := by
  induction ds generalizing types invalid with
  | nil => rfl
  | cons d rest ih =>
      obtain ⟨key, etype⟩ := d
      by_cases h₁ : key ∈ invalid
      · simp only [procDecls, if_pos h₁]
        exact ih _ _ h
      · by_cases h₂ : etype.1 = none
        · simp only [procDecls, if_neg h₁, if_pos h₂]
          exact ih _ _ (List.mem_append.mpr (Or.inl h))
        · cases h₃ : (types.lookup key).isSome
          · simp only [procDecls, if_neg h₁, if_neg h₂, h₃, Bool.false_eq_true,
              if_false]
            have hkk : key ≠ k := fun e => h₁ (e ▸ h)
            rw [ih _ _ h, lookup_append]
            have : List.lookup k [(key, etype)] = none := by
              simp [List.lookup_cons, beq_eq_false_iff_ne.mpr (Ne.symm hkk)]
            cases types.lookup k <;> simp [this]
          · simp only [procDecls, if_neg h₁, if_neg h₂, h₃, if_true]
            exact ih _ _ h

/-- One declaration pass never overwrites an already-resolved key. -/
theorem procDecls_lookup_some (ds types : List (String × RegEType))
    (invalid : List String) (k : String) (e : RegEType)
    (h : types.lookup k = some e) :
    ((procDecls ds types invalid).1).lookup k = some e := by
  induction ds generalizing types invalid with
  | nil => simpa [procDecls] using h
  | cons d rest ih =>
      obtain ⟨key, etype⟩ := d
      by_cases h₁ : key ∈ invalid
      · simp only [procDecls, if_pos h₁]
        exact ih _ _ h
      · by_cases h₂ : etype.1 = none
        · simp only [procDecls, if_neg h₁, if_pos h₂]
          exact ih _ _ h
        · cases h₃ : (types.lookup key).isSome
          · simp only [procDecls, if_neg h₁, if_neg h₂, h₃, Bool.false_eq_true,
              if_false]
            refine ih _ _ ?_
            rw [lookup_append, h]
            rfl
          · simp only [procDecls, if_neg h₁, if_neg h₂, h₃, if_true]
            exact ih _ _ h

/-- Through the whole breadth-first traversal, a key marked invalid keeps
the resolution it had when it was invalidated. -/
theorem getEventTypesAux_lookup_of_invalid (h : Hierarchy) (fuel : Nat)
    (queue : List String) (types : List (String × RegEType))
    (invalid : List String) (k : String) (hk : k ∈ invalid) :
    (getEventTypesAux h fuel queue types invalid).lookup k = types.lookup k := by
  induction fuel generalizing queue types invalid with
  | zero => rfl
  | succ fuel ih =>
      cases queue with
      | nil => rfl
      | cons c rest =>
          simp only [getEventTypesAux]
          rw [ih _ _ _ (procDecls_invalid_sub (h.decls c) types invalid k hk)]
          exact procDecls_lookup_of_invalid (h.decls c) types invalid k hk

/-- Through the whole breadth-first traversal, the first resolution of a
key wins: later (more distant) declarations never overwrite it. -/
theorem getEventTypesAux_lookup_some (h : Hierarchy) (fuel : Nat)
    (queue : List String) (types : List (String × RegEType))
    (invalid : List String) (k : String) (e : RegEType)
    (hk : types.lookup k = some e) :
    (getEventTypesAux h fuel queue types invalid).lookup k = some e := by
  induction fuel generalizing queue types invalid with
  | zero => exact hk
  | succ fuel ih =>
      cases queue with
      | nil => exact hk
      | cons c rest =>
          simp only [getEventTypesAux]
          exact ih _ _ _ (procDecls_lookup_some (h.decls c) types invalid k e hk)

/-- Claim C3: type-registry resolution.  First conjunct: once a name is on
the invalidation list, the rest of the breadth-first traversal leaves its
resolution unchanged, so no more distant ancestor can supply it.  Second
conjunct: the first adopted declaration of a name is never overwritten.
Remaining conjuncts: in the concrete hierarchy where `B` inherits from `A`,
`A` declares `"foo"` and `B` marks it invalid, resolving `B` yields no
`"foo"` entry while resolving `A`, and the sibling `C` that does not mark
it invalid, still yields `A`'s declaration. -/
theorem C3_registry_invalidation :
    (∀ (h : Hierarchy) (fuel : Nat) (queue : List String)
        (types : List (String × RegEType)) (invalid : List String)
        (k : String), k ∈ invalid →
      (getEventTypesAux h fuel queue types invalid).lookup k =
        types.lookup k) ∧
    (∀ (h : Hierarchy) (fuel : Nat) (queue : List String)
        (types : List (String × RegEType)) (invalid : List String)
        (k : String) (e : RegEType), types.lookup k = some e →
      (getEventTypesAux h fuel queue types invalid).lookup k = some e) ∧
    (get_event_types sampleHier "B" 4).lookup "foo" = none ∧
    (get_event_types sampleHier "A" 4).lookup "foo" = some fooDecl ∧
    (get_event_types sampleHier "C" 4).lookup "foo" = some fooDecl := by
  refine ⟨getEventTypesAux_lookup_of_invalid, getEventTypesAux_lookup_some,
    ?_, ?_, ?_⟩ <;> decide

/-- Witness for C3 at concrete inputs. -/
theorem C3_registry_invalidation_witness :
    ("foo" ∈ ["foo"] ∧
      (getEventTypesAux sampleHier 4 ["A"] [] ["foo"]).lookup "foo" =
        List.lookup "foo" ([] : List (String × RegEType))) ∧
    (List.lookup "foo" [("foo", fooDecl)] = some fooDecl ∧
      (getEventTypesAux sampleHier 4 ["B"] [("foo", fooDecl)] []).lookup "foo" =
        some fooDecl) :=
  ⟨⟨by decide,
      C3_registry_invalidation.1 sampleHier 4 ["A"] [] ["foo"] "foo" (by decide)⟩,
    ⟨by decide,
      C3_registry_invalidation.2.1 sampleHier 4 ["B"] [("foo", fooDecl)] []
        "foo" fooDecl (by decide)⟩⟩

/-- Claim C2: deleting an existing unlocked fragment at index `k` erases it
from the `(obj, name)` fragment list, drops the `to_valid` entry equal to
`(obj, name, k)` while decrementing same-key entries above `k` and keeping
all others, decrements `locked` entries above `k`, stops the periodic
trigger bound to `(obj, name, k)` and decrements triggers bound higher; the
fragment list of any other `(obj₂, name₂)` is unchanged. -/
theorem C2_del_event_renumbers {α : Type} (st : StoreState α) (obj : Nat)
    (name : String) (k : Nat) (obj₂ : Nat) (name₂ : String)
    (hlock : (obj, name, k) ∉ st.locked)
    (hex : k < (dbGetEvents st.events obj name).length)
    (hne : obj₂ ≠ obj ∨ name₂ ≠ name) :
    del_event st obj name k = Except.ok
      { events := dbSetEvents st.events obj name
          ((dbGetEvents st.events obj name).eraseIdx k),
        to_valid := st.to_valid.filterMap (tvStep obj name k),
        locked := st.locked.map (lockStep obj name k),
        scripts := st.scripts.map (sStep obj name k) } ∧
    dbGetEvents (dbSetEvents st.events obj name
        ((dbGetEvents st.events obj name).eraseIdx k)) obj₂ name₂ =
      dbGetEvents st.events obj₂ name₂ := by
  refine ⟨?_, dbGetEvents_dbSetEvents_ne _ _ _ _ _ _ hne⟩
  simp [del_event, hlock, List.getElem?_eq_getElem hex,
    renumberToValid_eq_filterMap]

/-- Witness for C2: delete fragment 1 of `(1, "greet")` in the sample
store. -/
theorem C2_del_event_renumbers_witness :
    ((1, "greet", 1) ∉ sampleStore.locked ∧
      1 < (dbGetEvents sampleStore.events 1 "greet").length ∧
      ((2 : Nat) ≠ 1 ∨ ("other" : String) ≠ "greet")) ∧
    (del_event sampleStore 1 "greet" 1 = Except.ok
        { events := dbSetEvents sampleStore.events 1 "greet"
            ((dbGetEvents sampleStore.events 1 "greet").eraseIdx 1),
          to_valid := sampleStore.to_valid.filterMap (tvStep 1 "greet" 1),
          locked := sampleStore.locked.map (lockStep 1 "greet" 1),
          scripts := sampleStore.scripts.map (sStep 1 "greet" 1) } ∧
      dbGetEvents (dbSetEvents sampleStore.events 1 "greet"
          ((dbGetEvents sampleStore.events 1 "greet").eraseIdx 1)) 2 "other" =
        dbGetEvents sampleStore.events 2 "other") :=
  ⟨⟨by decide, by decide, Or.inl (by decide)⟩,
    C2_del_event_renumbers sampleStore 1 "greet" 1 2 "other" (by decide)
      (by decide) (Or.inl (by decide))⟩

/-- Claim C10: `del_event` checks the lock set first.  First conjunct: a
locked tuple raises the locked-event error, whether or not a fragment
exists at that index.  Second conjunct: an unlocked tuple whose index is
out of range is a silent no-op leaving the whole state unchanged. -/
theorem C10_del_event_lock_precedence {α : Type} (st : StoreState α)
    (obj : Nat) (name : String) (k : Nat) :
    ((obj, name, k) ∈ st.locked → del_event st obj name k = .error ()) ∧
    ((obj, name, k) ∉ st.locked →
      (dbGetEvents st.events obj name).length ≤ k →
      del_event st obj name k = .ok st) := by
  constructor
  · intro h
    simp [del_event, h]
  · intro h₁ h₂
    simp [del_event, h₁, List.getElem?_eq_none h₂]

/-- Witness for C10: in the sample store, `(1, "greet", 5)` is locked while
only fragments 0–2 exist, and deleting it raises; deleting the unlocked
out-of-range index 7 returns the state unchanged. -/
theorem C10_del_event_lock_precedence_witness :
    ((1, "greet", 5) ∈ sampleStore.locked ∧
      del_event sampleStore 1 "greet" 5 = .error ()) ∧
    ((1, "greet", 7) ∉ sampleStore.locked ∧
      (dbGetEvents sampleStore.events 1 "greet").length ≤ 7 ∧
      del_event sampleStore 1 "greet" 7 = .ok sampleStore) :=
  ⟨⟨by decide,
      (C10_del_event_lock_precedence sampleStore 1 "greet" 5).1 (by decide)⟩,
    ⟨by decide, by decide,
      (C10_del_event_lock_precedence sampleStore 1 "greet" 7).2 (by decide)
        (by decide)⟩⟩

/-- In a list with no duplicate keys, erasing the entry for a key makes a
subsequent lookup of that key fail. -/
theorem lookup_eq_none_of_not_mem {β : Type} (l : List (Nat × β)) (k : Nat)
    (h : k ∉ l.map Prod.fst) : l.lookup k = none := by
  induction l with
  | nil => rfl
  | cons p rest ih =>
      obtain ⟨a, b⟩ := p
      simp only [List.map_cons, List.mem_cons, not_or] at h
      rw [List.lookup_cons, beq_eq_false_iff_ne.mpr h.1]
      exact ih h.2

/-- Popping a key from a duplicate-free association list removes its only
binding. -/
theorem lookup_eraseP_key {β : Type} (l : List (Nat × β)) (k : Nat)
    (h : (l.map Prod.fst).Nodup) :
    (l.eraseP (fun kv => kv.1 == k)).lookup k = none := by
  induction l with
  | nil => rfl
  | cons p rest ih =>
      obtain ⟨a, b⟩ := p
      simp only [List.map_cons, List.nodup_cons] at h
      by_cases ha : a = k
      · subst ha
        rw [List.eraseP_cons_of_pos (by simp)]
        exact lookup_eq_none_of_not_mem rest a h.1
      · rw [List.eraseP_cons_of_neg (by simp [ha]), List.lookup_cons,
          beq_eq_false_iff_ne.mpr (Ne.symm ha)]
        exact ih h.2

/-- Claim C5: completing a task id has pop semantics.  First conjunct: the
first call finds the stored record, removes it, and dispatches the stored
event with the captured snapshot as the override namespace.  Second
conjunct: a second call for the same id on the resulting state reports a
lookup miss and leaves the state unchanged, performing no dispatch. -/
theorem C5_complete_task_pop {α : Type} (st : SchedState α) (task_id : Nat)
    (r : TaskRecord α) (hN : (st.tasks.map Prod.fst).Nodup)
    (h : st.tasks.lookup task_id = some r) :
    complete_task (some st) task_id =
      (CompleteResult.dispatched r.obj r.name r.locals,
        some { st with tasks := st.tasks.eraseP (fun kv => kv.1 == task_id) }) ∧
    complete_task
        (some { st with tasks := st.tasks.eraseP (fun kv => kv.1 == task_id) })
        task_id =
      (CompleteResult.lookupMiss,
        some { st with
          tasks := st.tasks.eraseP (fun kv => kv.1 == task_id) }) := by
  constructor
  · simp [complete_task, h]
  · simp [complete_task, lookup_eraseP_key st.tasks task_id hN]

/-- Witness for C5 on the sample scheduler state. -/
theorem C5_complete_task_pop_witness :
    ((sampleSched.tasks.map Prod.fst).Nodup ∧
      sampleSched.tasks.lookup 0 = some ⟨100, 1, "greet", [("x", 5)]⟩) ∧
    (complete_task (some sampleSched) 0 =
        (CompleteResult.dispatched 1 "greet" [("x", 5)],
          some { sampleSched with
            tasks := sampleSched.tasks.eraseP (fun kv => kv.1 == 0) }) ∧
      complete_task
          (some { sampleSched with
            tasks := sampleSched.tasks.eraseP (fun kv => kv.1 == 0) }) 0 =
        (CompleteResult.lookupMiss,
          some { sampleSched with
            tasks := sampleSched.tasks.eraseP (fun kv => kv.1 == 0) })) :=
  ⟨⟨by decide, rfl⟩,
    C5_complete_task_pop sampleSched 0 ⟨100, 1, "greet", [("x", 5)]⟩
      (by decide) rfl⟩

/-- Claim C4: restart recovery.  First conjunct: the recovery pass arms,
for every persisted task in storage order, a one-shot timer whose delay is
`max 0 (future - now)` — so each pending task is re-armed exactly once
(also restated as the length equality).  Last two conjuncts: a task
scheduled with a 10-second delay is re-armed with 0 remaining after a
restart 15 seconds later, and with 7 remaining after a restart 3 seconds
later. -/
theorem C4_restart_rearm {α : Type} (tasks : List (Nat × TaskRecord α))
    (now t₀ : Int) (obj : Nat) (name : String) (ls : Namespace α)
    (task_id : Nat) :
    at_start_rearm tasks now =
      tasks.map (fun p => (max 0 (p.2.future - now), p.1)) ∧
    (at_start_rearm tasks now).length = tasks.length ∧
    at_start_rearm [(task_id, ⟨t₀ + 10, obj, name, ls⟩)] (t₀ + 15) =
      [(0, task_id)] ∧
    at_start_rearm [(task_id, ⟨t₀ + 10, obj, name, ls⟩)] (t₀ + 3) =
      [(7, task_id)] := by
  have hmax : ∀ v : Int, (if v < 0 then 0 else v) = max 0 v := by
    intro v
    rcases lt_or_le v 0 with hv | hv
    · rw [if_pos hv, max_eq_left hv.le]
    · rw [if_neg (not_lt.mpr hv), max_eq_right hv]
  refine ⟨?_, ?_, ?_, ?_⟩
  · simp only [at_start_rearm, hmax]
  · simp [at_start_rearm]
  · have h₁ : t₀ + 10 - (t₀ + 15) = (-5 : Int) := by ring
    simp [at_start_rearm, h₁]
  · have h₂ : t₀ + 10 - (t₀ + 3) = (7 : Int) := by ring
    simp [at_start_rearm, h₂]

/-- Claim C8: `set_task`.  The snapshot keeps exactly the storable entries
of the current namespace (so a non-storable value is silently omitted and
never aborts scheduling — the function is total); the record is stored
under the pre-increment counter value with fire time `now + seconds`; the
observable actions are the store followed by the timer arming; and an
immediately following `set_task` uses the next, strictly larger id. -/
theorem C8_set_task_snapshot {α : Type} (storable : α → Bool) (now : Int)
    (current_locals : Namespace α) (seconds : Int) (obj : Nat) (name : String)
    (st : SchedState α) (storable₂ : α → Bool) (now₂ : Int)
    (cl₂ : Namespace α) (seconds₂ : Int) (obj₂ : Nat) (name₂ : String)
    (kv : String × α) (hkv : kv ∈ current_locals) :
    (set_task storable now current_locals seconds obj name st).1.task_id =
      st.task_id + 1 ∧
    (set_task storable now current_locals seconds obj name st).1.tasks =
      alInsert st.tasks st.task_id
        ⟨now + seconds, obj, name,
          current_locals.filter (fun kv => storable kv.2)⟩ ∧
    (set_task storable now current_locals seconds obj name st).2 =
      [SchedAction.store st.task_id, SchedAction.arm seconds st.task_id] ∧
    (kv ∈ current_locals.filter (fun kv => storable kv.2) ↔
      storable kv.2 = true) ∧
    (set_task storable₂ now₂ cl₂ seconds₂ obj₂ name₂
        (set_task storable now current_locals seconds obj name st).1).2 =
      [SchedAction.store (st.task_id + 1),
        SchedAction.arm seconds₂ (st.task_id + 1)] := by
  refine ⟨rfl, rfl, rfl, ?_, rfl⟩
  simp [List.mem_filter, hkv]

/-- Witness for C8: a namespace with one storable and one non-storable
value. -/
theorem C8_set_task_snapshot_witness :
    ("y", 3) ∈ [("x", 2), ("y", 3)] ∧
    ((set_task (fun v => decide (v % 2 = 0)) 50 [("x", 2), ("y", 3)] 10 1
        "greet" sampleSched).1.task_id = sampleSched.task_id + 1 ∧
      (set_task (fun v => decide (v % 2 = 0)) 50 [("x", 2), ("y", 3)] 10 1
          "greet" sampleSched).1.tasks =
        alInsert sampleSched.tasks sampleSched.task_id
          ⟨50 + 10, 1, "greet",
            List.filter (fun kv => (fun v => decide (v % 2 = 0)) kv.2)
              [("x", 2), ("y", 3)]⟩ ∧
      (set_task (fun v => decide (v % 2 = 0)) 50 [("x", 2), ("y", 3)] 10 1
          "greet" sampleSched).2 =
        [SchedAction.store sampleSched.task_id,
          SchedAction.arm 10 sampleSched.task_id] ∧
      (("y", 3) ∈
          List.filter (fun kv => (fun v => decide (v % 2 = 0)) kv.2)
            [("x", 2), ("y", 3)] ↔
        (fun v => decide (v % 2 = 0)) (("y", 3) : String × Nat).2 = true) ∧
      (set_task (fun v => decide (v % 2 = 0)) 60 [] 4 2 "other"
          (set_task (fun v => decide (v % 2 = 0)) 50 [("x", 2), ("y", 3)] 10 1
            "greet" sampleSched).1).2 =
        [SchedAction.store (sampleSched.task_id + 1),
          SchedAction.arm 4 (sampleSched.task_id + 1)]) :=
  ⟨by decide,
    C8_set_task_snapshot (fun v => decide (v % 2 = 0)) 50 [("x", 2), ("y", 3)]
      10 1 "greet" sampleSched (fun v => decide (v % 2 = 0)) 60 [] 4 2
      "other" ("y", 3) (by decide)⟩

/-- Witness for the amended C9 at a concrete input. -/
theorem C9_amended_unknown_kwarg_type_error_witness :
    ("bogus" ∈ ["bogus"] ∧ "bogus" ∉ allowedKw ∧ "bogus" ≠ "") ∧
    call_event (α := Nat) [] none [⟨true, okCode⟩] []
      ⟨none, none, none, ["bogus"]⟩ = .typeError :=
  ⟨⟨by decide, by decide, by decide⟩,
    C9_amended_unknown_kwarg_type_error [] none [⟨true, okCode⟩] []
      ⟨none, none, none, ["bogus"]⟩ "bogus" (by decide) (by decide) (by decide)⟩

end Evennia
